import Mathlib

/-!
# gosoap: the SOAP client of `soap.go`

A shallow embedding of `src/soap.go` (package `soap`) and the properties of
`NewClient`, `Client.Call`, `Client.doRequest`, `Client.Unmarshal` and
`Client.GetLastRequest`.

Conventions of the embedding

* A Go `string` is a `String`, a Go `[]byte` is a list of bytes; a nil slice
  and an empty slice are both `[]` (the code only ever takes `len` of them).
* A Go `error` is an `Option String`: `none` is `nil`, `some s` is an error
  whose `Error()` text is `s`.
* A method with a pointer receiver returns the receiver's state after the
  call next to its Go results.
* Library calls (`url.Parse`, `xml.MarshalIndent`, `xml.Unmarshal`, the HTTP
  round trip) are parameters: every general result holds for all of them.  They
  are taken to be functions of their arguments and to leave the client alone;
  in particular the target handed to `Unmarshal` is a value apart from the
  client, not a pointer into it.
* A run-time panic (nil dereference, index out of range) is an explicit
  outcome, and the requests handed to the HTTP client are recorded.
-/

namespace Gosoap

/-! ## Data model -/

/-- Go `[]byte`. -/
abbrev Bytes := List UInt8

/-- `type Params map[string]string`; the code stores and forwards the map and never
looks inside it, so the association list is kept as given. -/
abbrev Params := List (String × String)

/-- Modelled from the spec: the address type of the WSDL definitions (declared
outside `soap.go`); `soap.go` reads only `Location`. -/
structure wsdlAddress where
  Location : String
deriving DecidableEq, Repr

/-- Modelled from the spec: a port holds an ordered sequence of addresses (the type
is declared outside `soap.go`, which reads only `SoapAddresses`). -/
structure wsdlPort where
  SoapAddresses : List wsdlAddress
deriving DecidableEq, Repr

/-- Modelled from the spec: a service holds an ordered sequence of ports (the type
is declared outside `soap.go`, which reads only `Ports`). -/
structure wsdlService where
  Ports : List wsdlPort
deriving DecidableEq, Repr

/-- Modelled from the spec: the service definition, a target namespace and an
ordered sequence of services (the type is declared outside `soap.go`, which
reads only `TargetNamespace` and `Services`). -/
structure wsdlDefinitions where
  TargetNamespace : String
  Services : List wsdlService
deriving DecidableEq, Repr

/-- Modelled from the spec: the fault structure, a code and a description (the type
is declared outside `soap.go`, which reads only `Code` and `Description`). -/
structure Fault where
  Code : String
  Description : String
deriving DecidableEq, Repr

/-- `type SoapHeader struct`: the inner XML of the header element. -/
structure SoapHeader where
  Contents : Bytes
deriving DecidableEq, Repr

/-- `type SoapBody struct`: the inner XML of the body element. -/
structure SoapBody where
  Contents : Bytes
deriving DecidableEq, Repr

/-- `type SoapEnvelope struct`. -/
structure SoapEnvelope where
  Header : SoapHeader
  Body : SoapBody
deriving DecidableEq, Repr

/-- `type Client struct`; `Definitions` is a pointer and may be nil. -/
structure Client where
  WSDL : String
  URL : String
  Method : String
  Params : Gosoap.Params
  HeaderName : String
  HeaderParams : Gosoap.Params
  Definitions : Option wsdlDefinitions
  Body : Bytes
  Header : Bytes
  payload : Bytes
deriving DecidableEq, Repr

/-- The part of an `http.Request` that `doRequest` fills in.  `Header` lists the
`Header.Add` calls in order, with the key as written in the source (`net/http`
stores a key in its canonical spelling; header names are case-insensitive). -/
structure Request where
  Method : String
  URL : String
  Header : List (String × String)
  Body : Bytes
  ContentLength : Int
deriving DecidableEq, Repr

/-- The run-time panics the code can raise. -/
inductive Panic where
  | nilDereference
  | indexOutOfRange (index length : Nat)
deriving DecidableEq, Repr

/-- How a call of a function with result `error` ends: it returns an error value
(`none` is nil) or it panics. -/
inductive Outcome where
  | returned (err : Option String)
  | panicked (p : Panic)
deriving DecidableEq, Repr

/-- The HTTP round trip of `doRequest`: `client.Do(req)` followed by
`ioutil.ReadAll(resp.Body)`.  `Except.error e` is an error of `Do`; otherwise the
pair is what `ReadAll` returns. -/
abbrev Transport := Request → Except String (Bytes × Option String)

/-- The collaborators of `soap.go`. -/
structure Env where
  /-- The error of `url.Parse`, `none` when the text parses. -/
  urlParse : String → Option String
  /-- The WSDL provider `getWsdlDefinitions` (declared outside `soap.go`). -/
  getWsdlDefinitions : String → Except String wsdlDefinitions
  /-- The two results of `xml.MarshalIndent(c, "", "")`. -/
  marshalIndent : Client → Bytes × Option String
  /-- The envelope after `xml.Unmarshal(b, &soap)` on a zero envelope, and the error. -/
  unmarshalEnvelope : Bytes → SoapEnvelope × Option String
  /-- The fault after `xml.Unmarshal(b, &f)` on a zero fault, and the error. -/
  unmarshalFault : Bytes → Fault × Option String

/-- The two results of `xml.Unmarshal(b, v)` for a target of type `V`: the target
after the call and the error. -/
abbrev Decoder (V : Type) := Bytes → V → V × Option String

/-! ## Library functions with a fixed meaning -/

/-- `strings.HasSuffix`: `len(s) >= len(suffix) && s[len(s)-len(suffix):] == suffix`. -/
def HasSuffix (s suffix : String) : Bool :=
  decide (s.data.length ≥ suffix.data.length) &&
    decide (s.data.drop (s.data.length - suffix.data.length) = suffix.data)

/-- `strings.TrimSuffix`: `s` without the given trailing suffix, `s` itself when it
does not end with it. -/
def TrimSuffix (s suffix : String) : String :=
  if HasSuffix s suffix then ⟨s.data.take (s.data.length - suffix.data.length)⟩ else s

/-- `http.NewRequest(method, url, bytes.NewBuffer(body))`: fails when the URL does
not parse, and otherwise gives a request with the method, the URL, no header, the
body and its length. -/
def httpNewRequest (env : Env) (method url : String) (body : Bytes) : Except String Request :=
  match env.urlParse url with
  | some e => .error e
  | none => .ok { Method := method, URL := url, Header := [], Body := body,
                  ContentLength := body.length }

/-- `req.Header.Add(key, value)`. -/
def Request.headerAdd (req : Request) (key value : String) : Request :=
  { req with Header := req.Header ++ [(key, value)] }

/-- The element `xs[0]` of a slice, which panics on an empty slice. -/
def index0 {α : Type} : List α → Except Panic α
  | [] => .error (.indexOutOfRange 0 0)
  | x :: _ => .ok x

/-! ## The code of `soap.go` -/

/-- What `NewClient` returns: the client, or the error. -/
def NewClient (env : Env) (wsdl : String) : Except String Client :=
  match env.urlParse wsdl with
  | some e => .error e
  | none =>
    match env.getWsdlDefinitions wsdl with
    | .error e => .error e
    | .ok d =>
      .ok { WSDL := wsdl
            URL := TrimSuffix d.TargetNamespace "/"
            Method := ""
            Params := []
            HeaderName := ""
            HeaderParams := []
            Definitions := some d
            Body := []
            Header := []
            payload := [] }

/-- `func (c *Client) GetLastRequest() []byte`: the client after the call and the
result. -/
def Client.GetLastRequest (c : Client) : Client × Bytes :=
  (c, c.payload)

/-- The results of `doRequest` and the requests it handed to the HTTP client. -/
structure DoRequestResult where
  bytes : Bytes
  err : Option String
  sent : List Request
deriving DecidableEq, Repr

/-- `func (c *Client) doRequest(url string) ([]byte, error)`. -/
def Client.doRequest (c : Client) (env : Env) (tr : Transport) (url : String) :
    DoRequestResult :=
  match httpNewRequest env "POST" url c.payload with
  | .error e => { bytes := [], err := some e, sent := [] }
  | .ok req =>
    let req := { req with ContentLength := (c.payload.length : Int) }
    let req := req.headerAdd "Content-Type" "text/xml;charset=UTF-8"
    let req := req.headerAdd "Accept" "text/xml"
    let req := req.headerAdd "SOAPAction" (c.URL ++ "/" ++ c.Method)
    match tr req with
    | .error e => { bytes := [], err := some e, sent := [req] }
    | .ok (b, e) => { bytes := b, err := e, sent := [req] }

/-- The argument `c.Definitions.Services[0].Ports[0].SoapAddresses[0].Location` of
the call of `doRequest` in `Call`. -/
def Client.firstLocation (c : Client) : Except Panic String :=
  match c.Definitions with
  | none => .error .nilDereference
  | some d =>
    match index0 d.Services with
    | .error p => .error p
    | .ok s =>
      match index0 s.Ports with
      | .error p => .error p
      | .ok pt =>
        match index0 pt.SoapAddresses with
        | .error p => .error p
        | .ok a => .ok a.Location

/-- The client after `Call`, how the call ended, and the requests handed to the HTTP
client during it. -/
structure CallResult where
  client : Client
  outcome : Outcome
  sent : List Request
deriving DecidableEq, Repr

/-- `func (c *Client) Call(m string, p Params) (err error)`. -/
def Client.Call (c : Client) (env : Env) (tr : Transport) (m : String) (p : Gosoap.Params) :
    CallResult :=
  let c1 := { c with Method := m, Params := p }
  let enc := env.marshalIndent c1
  let c2 := { c1 with payload := enc.1 }
  match enc.2 with
  | some e => { client := c2, outcome := .returned (some ("MarshalIndent failed: " ++ e)),
                sent := [] }
  | none =>
    match c2.firstLocation with
    | .error pn => { client := c2, outcome := .panicked pn, sent := [] }
    | .ok url =>
      let r := c2.doRequest env tr url
      match r.err with
      | some e => { client := c2, outcome := .returned (some ("doRequest failed: " ++ e)),
                    sent := r.sent }
      | none =>
        let dec := env.unmarshalEnvelope r.bytes
        let c3 := { c2 with Body := dec.1.Body.Contents, Header := dec.1.Header.Contents }
        match dec.2 with
        | some e => { client := c3,
                      outcome := .returned (some ("Unmarshal response failed: " ++ e)),
                      sent := r.sent }
        | none => { client := c3, outcome := .returned none, sent := r.sent }

/-- A call of `xml.Unmarshal` made by `Client.Unmarshal`, with the bytes it was
given: into the local fault or into the caller's target. -/
inductive DecodeOp where
  | fault (b : Bytes)
  | target (b : Bytes)
deriving DecidableEq, Repr

/-- The client and the target after `Unmarshal`, the error it returns, and the
decodes it ran, in order. -/
structure UnmarshalResult (V : Type) where
  client : Client
  target : V
  err : Option String
  decoded : List DecodeOp

/-- `func (c *Client) Unmarshal(v interface{}) error`. -/
def Client.Unmarshal {V : Type} (c : Client) (env : Env) (dec : Decoder V) (v : V) :
    UnmarshalResult V :=
  if c.Body.length = 0 then
    { client := c, target := v, err := some "Body is empty", decoded := [] }
  else
    let f := (env.unmarshalFault c.Body).1
    if f.Code ≠ "" then
      { client := c, target := v,
        err := some ("[" ++ f.Code ++ "]: " ++ f.Description),
        decoded := [.fault c.Body] }
    else
      let r := dec c.Body v
      { client := c, target := r.1, err := r.2,
        decoded := [.fault c.Body, .target c.Body] }

/-! ## Names for the stages of `Call` -/

/-- The client after the first two assignments of `Call`. -/
def Client.withCall (c : Client) (m : String) (p : Gosoap.Params) : Client :=
  { c with Method := m, Params := p }

/-- The two results of the encoding step of `Call(m, p)`. -/
def Client.encoded (c : Client) (env : Env) (m : String) (p : Gosoap.Params) :
    Bytes × Option String :=
  env.marshalIndent (c.withCall m p)

/-- The client after the encoding step of `Call(m, p)`. -/
def Client.prepared (c : Client) (env : Env) (m : String) (p : Gosoap.Params) : Client :=
  { c.withCall m p with payload := (c.encoded env m p).1 }

/-- The request that `doRequest` builds for the address `url`. -/
def Client.request (c : Client) (url : String) : Request :=
  { Method := "POST", URL := url,
    Header := [("Content-Type", "text/xml;charset=UTF-8"), ("Accept", "text/xml"),
               ("SOAPAction", c.URL ++ "/" ++ c.Method)],
    Body := c.payload, ContentLength := (c.payload.length : Int) }

/-- An error returned by `Call` at the stage of the given name: its text starts
with the name followed by ` failed: `. -/
def Outcome.failedAt (stage : String) : Outcome → Bool
  | .returned (some s) => (stage ++ " failed: ").data.isPrefixOf s.data
  | _ => false

/-- One invocation of `Call`: the method, the parameters and the round trip the
network offers to it. -/
structure CallInput where
  m : String
  p : Gosoap.Params
  transport : Transport

/-- The results of a sequence of `Call` invocations on one client, in order. -/
def runCalls (env : Env) : Client → List CallInput → List CallResult
  | _, [] => []
  | c, i :: rest =>
    (c.Call env i.transport i.m i.p) ::
      runCalls env (c.Call env i.transport i.m i.p).client rest

/-- The client after a sequence of `Call` invocations. -/
def afterCalls (env : Env) : Client → List CallInput → Client
  | c, [] => c
  | c, i :: rest => afterCalls env (c.Call env i.transport i.m i.p).client rest

/-! ## Sample collaborators

Concrete collaborators on which the definitions can be evaluated.  They serve to
instantiate the general results and to exhibit concrete runs; the general results
quantify over every `Env`, `Transport` and `Decoder`. -/

/-- The bytes of an ASCII text. -/
def ascii (s : String) : Bytes :=
  s.data.map fun ch => UInt8.ofNat ch.toNat

/-- The text of ASCII bytes. -/
def text (b : Bytes) : String :=
  ⟨b.map fun x => Char.ofNat x.toNat⟩

/-- Splits `s` around the first occurrence of `pat`. -/
def cut (pat : Bytes) : Bytes → Option (Bytes × Bytes)
  | [] => if pat = [] then some ([], []) else none
  | b :: bs =>
    if pat.isPrefixOf (b :: bs) then some ([], (b :: bs).drop pat.length)
    else (cut pat bs).map fun r => (b :: r.1, r.2)

/-- The content of the first element `name` in `b`, empty when there is none. -/
def element (name : String) (b : Bytes) : Bytes :=
  match cut (ascii ("<" ++ name ++ ">")) b with
  | none => []
  | some (_, rest) =>
    match cut (ascii ("</" ++ name ++ ">")) rest with
    | none => []
    | some (inner, _) => inner

/-- A sample of `url.Parse`: a text that starts with a colon has no protocol scheme
and is rejected with the error of `net/url`; every other text is accepted. -/
def sampleUrlParse (s : String) : Option String :=
  match s.data with
  | ':' :: _ => some ("parse \"" ++ s ++ "\": missing protocol scheme")
  | _ => none

/-- Modelled from the spec: the fault decoder for the fault shape of the spec, an
element exposing a `Code` field and a `Description` field (the fault type and its
field tags are declared outside `soap.go`).  A body that is not XML at all gives
an error and the zero fault. -/
def sampleUnmarshalFault (b : Bytes) : Fault × Option String :=
  match b with
  | 60 :: _ => ({ Code := text (element "Code" b),
                  Description := text (element "Description" b) }, none)
  | _ => ({ Code := "", Description := "" }, some "EOF")

/-- The children of the envelope element, for a document made of `<Envelope>`,
then `Header` and `Body` elements without attributes and without an inner element
of their own name, then `</Envelope>` or the end of the input.  On these
`encoding/xml` fills a `SoapEnvelope` as follows: the inner XML of a `Header` or
`Body` child is stored when its end tag is reached, and an input that ends before
`</Envelope>` is a syntax error that keeps what was stored. -/
def scanEnvelope : Nat → Bytes → SoapEnvelope → SoapEnvelope × Option String
  | 0, _, e => (e, some "XML syntax error on line 1: unexpected EOF")
  | fuel + 1, b, e =>
    if (ascii "</Envelope>").isPrefixOf b then (e, none)
    else if (ascii "<Header>").isPrefixOf b then
      match cut (ascii "</Header>") (b.drop 8) with
      | none => (e, some "XML syntax error on line 1: unexpected EOF")
      | some (inner, rest) => scanEnvelope fuel rest { e with Header := ⟨inner⟩ }
    else if (ascii "<Body>").isPrefixOf b then
      match cut (ascii "</Body>") (b.drop 6) with
      | none => (e, some "XML syntax error on line 1: unexpected EOF")
      | some (inner, rest) => scanEnvelope fuel rest { e with Body := ⟨inner⟩ }
    else (e, some "XML syntax error on line 1: unexpected EOF")

/-- A sample of `xml.Unmarshal(b, &soap)` for such documents and for text that holds
no element at all, which is reported as `EOF`. -/
def sampleUnmarshalEnvelope (b : Bytes) : SoapEnvelope × Option String :=
  if (ascii "<Envelope>").isPrefixOf b then
    scanEnvelope b.length (b.drop 10) { Header := ⟨[]⟩, Body := ⟨[]⟩ }
  else ({ Header := ⟨[]⟩, Body := ⟨[]⟩ }, some "EOF")

/-- The elements `<key>value</key>` of a parameter map. -/
def encodeParams (p : Params) : String :=
  String.join (p.map fun kv => "<" ++ kv.1 ++ ">" ++ kv.2 ++ "</" ++ kv.1 ++ ">")

/-- Modelled from the spec: the request encoder (the marshaller of `Client` is
declared outside `soap.go`): an `Envelope` holding a `Header` when header
parameters are supplied and a `Body` whose only child is named after the method
and holds one element per parameter.  An empty method name cannot name an
element and is an encoding error. -/
def sampleMarshalIndent (c : Client) : Bytes × Option String :=
  if c.Method = "" then ([], some "xml: start tag with no name")
  else
    (ascii ("<Envelope>" ++
      (if c.HeaderParams = [] then "" else "<Header>" ++ encodeParams c.HeaderParams ++ "</Header>") ++
      "<Body><" ++ c.Method ++ ">" ++ encodeParams c.Params ++ "</" ++ c.Method ++ ">" ++
      "</Body></Envelope>"), none)

/-- The sample collaborators around a provider that returns `d`. -/
def sampleEnv (d : wsdlDefinitions) : Env where
  urlParse := sampleUrlParse
  getWsdlDefinitions := fun _ => .ok d
  marshalIndent := sampleMarshalIndent
  unmarshalEnvelope := sampleUnmarshalEnvelope
  unmarshalFault := sampleUnmarshalFault

/-- A service definition with one service, one port and the given address. -/
def definitionsAt (namespace_ address : String) : wsdlDefinitions :=
  { TargetNamespace := namespace_, Services := [⟨[⟨[⟨address⟩]⟩]⟩] }

/-- The definitions of the scenario of the spec. -/
def sampleDefinitions : wsdlDefinitions :=
  definitionsAt "http://example.org/ns/" "http://example.org/endpoint"

/-- A round trip that answers every request with the bytes `b`. -/
def respond (b : Bytes) : Transport :=
  fun _ => .ok (b, none)

/-- A round trip that fails with the error `e`. -/
def refuse (e : String) : Transport :=
  fun _ => .error e

/-- A caller's target type with one field. -/
structure Reply where
  Value : String
deriving DecidableEq, Repr

/-- A sample of `xml.Unmarshal(b, v)` for a `*Reply` whose field is tagged with the
element name `tag`: the field takes the content of the element of that name, when
there is one. -/
def sampleUnmarshalReply (tag : String) : Decoder Reply :=
  fun b v =>
    match b with
    | 60 :: _ => (if element tag b = [] then v else { Value := text (element tag b) }, none)
    | _ => (v, some "EOF")

/-- The location of the WSDL in the scenario of the spec. -/
def sampleWSDL : String := "http://example.org/service?wsdl"

/-- The client that `NewClient` returns for `sampleWSDL` when the provider returns `d`. -/
def sampleClient (d : wsdlDefinitions) : Client :=
  { WSDL := sampleWSDL, URL := TrimSuffix d.TargetNamespace "/",
    Method := "", Params := [], HeaderName := "", HeaderParams := [],
    Definitions := some d, Body := [], Header := [], payload := [] }

/-- A client of the scenario whose stored body is `b`. -/
def clientWithBody (b : Bytes) : Client :=
  { sampleClient sampleDefinitions with Body := b }

/-- The fault body of the scenario of the spec. -/
def faultBody : Bytes :=
  ascii "<Fault><Code>400</Code><Description>bad id</Description></Fault>"

/-- A well-formed response whose body holds one element. -/
def fullResponse : Bytes :=
  ascii "<Envelope><Body><a>1</a></Body></Envelope>"

/-- The same response cut off before the end tag of the envelope. -/
def truncatedResponse : Bytes :=
  ascii "<Envelope><Body><a>1</a></Body>"

/-- A response that is not XML. -/
def garbageResponse : Bytes :=
  ascii "502 Bad Gateway"

/-- The client of the scenario after a first call `GetUser` that succeeded with
`fullResponse`. -/
def clientAfterGetUser : Client :=
  ((sampleClient sampleDefinitions).Call (sampleEnv sampleDefinitions)
    (respond fullResponse) "GetUser" [("id", "42")]).client

/-- Three calls that fail: at the encoding (no method name), at the transport, and at
the decoding of a response that is not XML. -/
def failingCalls : List CallInput :=
  [⟨"", [], respond fullResponse⟩,
   ⟨"GetUser", [("id", "42")], refuse "down"⟩,
   ⟨"GetUser", [("id", "42")], respond garbageResponse⟩]

/-! ## The four ways through `Call` -/

theorem prepared_firstLocation (c : Client) (env : Env) (m : String) (p : Params) :
    (c.prepared env m p).firstLocation = c.firstLocation := rfl

theorem Call_of_encoding_error (c : Client) (env : Env) (tr : Transport) (m : String)
    (p : Params) (e : String) (henc : (c.encoded env m p).2 = some e) :
    c.Call env tr m p =
      { client := c.prepared env m p,
        outcome := .returned (some ("MarshalIndent failed: " ++ e)), sent := [] } := by
  unfold Client.encoded Client.withCall at henc
  simp only [Client.Call, henc]
  rfl

theorem Call_of_panic (c : Client) (env : Env) (tr : Transport) (m : String)
    (p : Params) (pn : Panic) (henc : (c.encoded env m p).2 = none)
    (hloc : c.firstLocation = .error pn) :
    c.Call env tr m p =
      { client := c.prepared env m p, outcome := .panicked pn, sent := [] } := by
  have hloc2 : (c.prepared env m p).firstLocation = .error pn := hloc
  unfold Client.prepared Client.encoded Client.withCall at hloc2
  unfold Client.encoded Client.withCall at henc
  simp only [Client.Call, henc, hloc2]
  rfl

theorem Call_of_request_error (c : Client) (env : Env) (tr : Transport) (m : String)
    (p : Params) (url e : String) (henc : (c.encoded env m p).2 = none)
    (hloc : c.firstLocation = .ok url)
    (hreq : ((c.prepared env m p).doRequest env tr url).err = some e) :
    c.Call env tr m p =
      { client := c.prepared env m p,
        outcome := .returned (some ("doRequest failed: " ++ e)),
        sent := ((c.prepared env m p).doRequest env tr url).sent } := by
  have hloc2 : (c.prepared env m p).firstLocation = .ok url := hloc
  unfold Client.prepared Client.encoded Client.withCall at hloc2 hreq
  unfold Client.encoded Client.withCall at henc
  simp only [Client.Call, henc, hloc2, hreq]
  rfl

theorem Call_of_response (c : Client) (env : Env) (tr : Transport) (m : String)
    (p : Params) (url : String) (henc : (c.encoded env m p).2 = none)
    (hloc : c.firstLocation = .ok url)
    (hreq : ((c.prepared env m p).doRequest env tr url).err = none) :
    c.Call env tr m p =
      { client :=
          { c.prepared env m p with
            Body := (env.unmarshalEnvelope
              ((c.prepared env m p).doRequest env tr url).bytes).1.Body.Contents
            Header := (env.unmarshalEnvelope
              ((c.prepared env m p).doRequest env tr url).bytes).1.Header.Contents },
        outcome :=
          match (env.unmarshalEnvelope
              ((c.prepared env m p).doRequest env tr url).bytes).2 with
          | some e => .returned (some ("Unmarshal response failed: " ++ e))
          | none => .returned none,
        sent := ((c.prepared env m p).doRequest env tr url).sent } := by
  have hloc2 : (c.prepared env m p).firstLocation = .ok url := hloc
  unfold Client.prepared Client.encoded Client.withCall at hloc2 hreq
  unfold Client.encoded Client.withCall at henc
  simp only [Client.Call, henc, hloc2, hreq]
  split <;> rename_i hdec <;> simp only [Client.prepared, Client.encoded, Client.withCall, hdec]

theorem Call_cases (c : Client) (env : Env) (tr : Transport) (m : String) (p : Params) :
    (∃ e, (c.encoded env m p).2 = some e ∧
      c.Call env tr m p =
        { client := c.prepared env m p,
          outcome := .returned (some ("MarshalIndent failed: " ++ e)), sent := [] }) ∨
    (∃ pn, (c.encoded env m p).2 = none ∧ c.firstLocation = .error pn ∧
      c.Call env tr m p =
        { client := c.prepared env m p, outcome := .panicked pn, sent := [] }) ∨
    (∃ url e, (c.encoded env m p).2 = none ∧ c.firstLocation = .ok url ∧
      ((c.prepared env m p).doRequest env tr url).err = some e ∧
      c.Call env tr m p =
        { client := c.prepared env m p,
          outcome := .returned (some ("doRequest failed: " ++ e)),
          sent := ((c.prepared env m p).doRequest env tr url).sent }) ∨
    (∃ url, (c.encoded env m p).2 = none ∧ c.firstLocation = .ok url ∧
      ((c.prepared env m p).doRequest env tr url).err = none ∧
      c.Call env tr m p =
        { client :=
            { c.prepared env m p with
              Body := (env.unmarshalEnvelope
                ((c.prepared env m p).doRequest env tr url).bytes).1.Body.Contents
              Header := (env.unmarshalEnvelope
                ((c.prepared env m p).doRequest env tr url).bytes).1.Header.Contents },
          outcome :=
            match (env.unmarshalEnvelope
                ((c.prepared env m p).doRequest env tr url).bytes).2 with
            | some e => .returned (some ("Unmarshal response failed: " ++ e))
            | none => .returned none,
          sent := ((c.prepared env m p).doRequest env tr url).sent }) := by
  cases henc : (c.encoded env m p).2 with
  | some e => exact Or.inl ⟨e, rfl, Call_of_encoding_error c env tr m p e henc⟩
  | none =>
    cases hloc : c.firstLocation with
    | error pn => exact Or.inr (Or.inl ⟨pn, rfl, rfl, Call_of_panic c env tr m p pn henc hloc⟩)
    | ok url =>
      cases hreq : ((c.prepared env m p).doRequest env tr url).err with
      | some e =>
        exact Or.inr (Or.inr (Or.inl ⟨url, e, rfl, rfl, hreq,
          Call_of_request_error c env tr m p url e henc hloc hreq⟩))
      | none =>
        exact Or.inr (Or.inr (Or.inr ⟨url, rfl, rfl, hreq,
          Call_of_response c env tr m p url henc hloc hreq⟩))

/-! ## The request -/

theorem doRequest_of_bad_url (c : Client) (env : Env) (tr : Transport) (url e : String)
    (hurl : env.urlParse url = some e) :
    c.doRequest env tr url = { bytes := [], err := some e, sent := [] } := by
  simp only [Client.doRequest, httpNewRequest, hurl]

theorem doRequest_sent (c : Client) (env : Env) (tr : Transport) (url : String)
    (hurl : env.urlParse url = none) :
    (c.doRequest env tr url).sent = [c.request url] := by
  simp only [Client.doRequest, httpNewRequest, hurl, Request.headerAdd, Client.request]
  split <;> simp

theorem doRequest_sent_body (c : Client) (env : Env) (tr : Transport) (url : String) :
    ∀ req ∈ (c.doRequest env tr url).sent, req.Body = c.payload := by
  intro req hreq
  cases hurl : env.urlParse url with
  | some e =>
    rw [doRequest_of_bad_url c env tr url e hurl] at hreq
    simp at hreq
  | none =>
    rw [doRequest_sent c env tr url hurl] at hreq
    simp only [List.mem_singleton] at hreq
    rw [hreq]
    rfl

theorem firstLocation_of_endpoint (c : Client) (d : wsdlDefinitions) (s : wsdlService)
    (ss : List wsdlService) (pt : wsdlPort) (pts : List wsdlPort) (a : wsdlAddress)
    (as : List wsdlAddress) (hd : c.Definitions = some d) (hs : d.Services = s :: ss)
    (hp : s.Ports = pt :: pts) (ha : pt.SoapAddresses = a :: as) :
    c.firstLocation = .ok a.Location := by
  simp only [Client.firstLocation, hd, hs, hp, ha, index0]

theorem firstLocation_without_endpoint (c : Client) (d : wsdlDefinitions)
    (hd : c.Definitions = some d)
    (hno : d.Services = [] ∨ ∃ s ss, d.Services = s :: ss ∧
      (s.Ports = [] ∨ ∃ pt pts, s.Ports = pt :: pts ∧ pt.SoapAddresses = [])) :
    c.firstLocation = .error (.indexOutOfRange 0 0) := by
  rcases hno with hs | ⟨s, ss, hs, hp | ⟨pt, pts, hp, ha⟩⟩
  · simp only [Client.firstLocation, hd, hs, index0]
  · simp only [Client.firstLocation, hd, hs, hp, index0]
  · simp only [Client.firstLocation, hd, hs, hp, ha, index0]

/-! ## Unmarshal -/

/-- C1: when the stored body is not empty and decodes as a fault with a non-empty
code, `Unmarshal` returns the error `[Code]: Description`, runs only the fault
decode, and leaves the target (and the client) as they were, whatever the decoder
of the target would have done with the body. -/
theorem Unmarshal_fault_precedence {V : Type} (env : Env) (dec : Decoder V) (c : Client)
    (v : V) (hbody : c.Body.length ≠ 0)
    (hcode : (env.unmarshalFault c.Body).1.Code ≠ "") :
    c.Unmarshal env dec v =
      { client := c, target := v,
        err := some ("[" ++ (env.unmarshalFault c.Body).1.Code ++ "]: " ++
                      (env.unmarshalFault c.Body).1.Description),
        decoded := [DecodeOp.fault c.Body] } := by
  unfold Client.Unmarshal
  rw [if_neg hbody]
  simp only [hcode, ne_eq, not_false_eq_true, if_true]

/-- The fault body of the spec gives the error for code 400 and description
`bad id`, and the target keeps its value although the body decodes into it. -/
theorem Unmarshal_fault_precedence_witness :
    sampleUnmarshalReply "Code" faultBody ⟨"old"⟩ = (⟨"400"⟩, none) ∧
    ((clientWithBody faultBody).Unmarshal (sampleEnv sampleDefinitions)
        (sampleUnmarshalReply "Code") ⟨"old"⟩).err = some "[400]: bad id" ∧
    ((clientWithBody faultBody).Unmarshal (sampleEnv sampleDefinitions)
        (sampleUnmarshalReply "Code") ⟨"old"⟩).target = ⟨"old"⟩ ∧
    ((clientWithBody faultBody).Unmarshal (sampleEnv sampleDefinitions)
        (sampleUnmarshalReply "Code") ⟨"old"⟩).decoded = [DecodeOp.fault faultBody] := by
  rw [Unmarshal_fault_precedence (sampleEnv sampleDefinitions) (sampleUnmarshalReply "Code")
    (clientWithBody faultBody) ⟨"old"⟩ (by decide) (by decide)]
  refine ⟨by decide, by decide, rfl, rfl⟩

/-- C2: when the stored body has length zero, `Unmarshal` returns the error
`Body is empty`, runs no decode at all, and leaves the target and the client
unchanged. -/
theorem Unmarshal_empty_body {V : Type} (env : Env) (dec : Decoder V) (c : Client) (v : V)
    (hbody : c.Body.length = 0) :
    c.Unmarshal env dec v =
      { client := c, target := v, err := some "Body is empty", decoded := [] } := by
  unfold Client.Unmarshal
  rw [if_pos hbody]

/-- A client returned by `NewClient`, on which `Call` was never invoked, has an
empty body and `Unmarshal` reports it. -/
theorem Unmarshal_empty_body_witness :
    NewClient (sampleEnv sampleDefinitions) sampleWSDL = .ok (clientWithBody []) ∧
    ((clientWithBody []).Unmarshal (sampleEnv sampleDefinitions)
        (sampleUnmarshalReply "Code") ⟨"old"⟩).err = some "Body is empty" ∧
    ((clientWithBody []).Unmarshal (sampleEnv sampleDefinitions)
        (sampleUnmarshalReply "Code") ⟨"old"⟩).target = ⟨"old"⟩ := by
  rw [Unmarshal_empty_body (sampleEnv sampleDefinitions) (sampleUnmarshalReply "Code")
    (clientWithBody []) ⟨"old"⟩ (by decide)]
  refine ⟨rfl, rfl, rfl⟩

/-- C3: when the stored body is not empty and the fault decode leaves an empty code,
whether or not it reported an error, `Unmarshal` returns exactly the two results
of the decode of the stored body into the target, after the two decodes and
nothing else; the client is unchanged, so a further `Unmarshal` on any target
gives what it would have given before. -/
theorem Unmarshal_no_fault {V : Type} (env : Env) (dec : Decoder V) (c : Client) (v : V)
    (hbody : c.Body.length ≠ 0)
    (hcode : (env.unmarshalFault c.Body).1.Code = "") :
    c.Unmarshal env dec v =
      { client := c, target := (dec c.Body v).1, err := (dec c.Body v).2,
        decoded := [DecodeOp.fault c.Body, DecodeOp.target c.Body] } ∧
    (c.Unmarshal env dec v).client.Body = c.Body ∧
    ∀ w : V, (c.Unmarshal env dec v).client.Unmarshal env dec w = c.Unmarshal env dec w := by
  have h : c.Unmarshal env dec v =
      { client := c, target := (dec c.Body v).1, err := (dec c.Body v).2,
        decoded := [DecodeOp.fault c.Body, DecodeOp.target c.Body] } := by
    unfold Client.Unmarshal
    rw [if_neg hbody]
    simp only [hcode, ne_eq, not_true_eq_false, if_false]
  refine ⟨h, ?_, ?_⟩
  · rw [h]
  · intro w
    rw [h]

/-- A body that is no fault but makes the fault decode report an error, and a body
that is a reply: in both the result is the one of the typed decode. -/
theorem Unmarshal_no_fault_witness :
    (sampleUnmarshalFault (ascii "not xml")).2 = some "EOF" ∧
    ((clientWithBody (ascii "not xml")).Unmarshal (sampleEnv sampleDefinitions)
        (sampleUnmarshalReply "Name") ⟨"old"⟩).err = some "EOF" ∧
    ((clientWithBody (ascii "<R><Name>Ann</Name></R>")).Unmarshal (sampleEnv sampleDefinitions)
        (sampleUnmarshalReply "Name") ⟨"old"⟩).target = ⟨"Ann"⟩ := by
  rw [(Unmarshal_no_fault (sampleEnv sampleDefinitions) (sampleUnmarshalReply "Name")
        (clientWithBody (ascii "not xml")) ⟨"old"⟩ (by decide) (by decide)).1,
      (Unmarshal_no_fault (sampleEnv sampleDefinitions) (sampleUnmarshalReply "Name")
        (clientWithBody (ascii "<R><Name>Ann</Name></R>")) ⟨"old"⟩ (by decide) (by decide)).1]
  refine ⟨by decide, by decide, by decide⟩

/-! ## Call: the endpoint and the request -/

/-- C4 (as the code has it): when the service definition has no service, or its
first service no port, or its first port no address, `Call` hands no request to the
transport; it returns the `MarshalIndent failed` error when the encoding fails and
otherwise stops with the bounds fault `index out of range [0] with length 0`, not
with an error result. -/
theorem Call_without_endpoint (c : Client) (env : Env) (tr : Transport) (m : String)
    (p : Params) (d : wsdlDefinitions) (hd : c.Definitions = some d)
    (hno : d.Services = [] ∨ ∃ s ss, d.Services = s :: ss ∧
      (s.Ports = [] ∨ ∃ pt pts, s.Ports = pt :: pts ∧ pt.SoapAddresses = [])) :
    (c.Call env tr m p).sent = [] ∧
    (∀ e, (c.encoded env m p).2 = some e →
      (c.Call env tr m p).outcome = .returned (some ("MarshalIndent failed: " ++ e))) ∧
    ((c.encoded env m p).2 = none →
      (c.Call env tr m p).outcome = .panicked (.indexOutOfRange 0 0)) := by
  have hloc := firstLocation_without_endpoint c d hd hno
  cases henc : (c.encoded env m p).2 with
  | some e =>
    rw [Call_of_encoding_error c env tr m p e henc]
    refine ⟨rfl, ?_, ?_⟩
    · intro e2 h2
      cases h2
      rfl
    · intro h2
      cases h2
  | none =>
    rw [Call_of_panic c env tr m p _ henc hloc]
    refine ⟨rfl, ?_, ?_⟩
    · intro e2 h2
      cases h2
    · intro _
      rfl

/-- A definition without services, with a method that encodes and with one that does
not: in both no request is sent. -/
theorem Call_without_endpoint_witness :
    ((sampleClient ⟨"http://example.org/ns/", []⟩).Call
        (sampleEnv ⟨"http://example.org/ns/", []⟩) (respond []) "" []).sent = [] ∧
    ((sampleClient ⟨"http://example.org/ns/", []⟩).Call
        (sampleEnv ⟨"http://example.org/ns/", []⟩) (respond []) "" []).outcome =
      .returned (some "MarshalIndent failed: xml: start tag with no name") ∧
    ((sampleClient ⟨"http://example.org/ns/", [⟨[]⟩]⟩).Call
        (sampleEnv ⟨"http://example.org/ns/", [⟨[]⟩]⟩) (respond []) "GetUser" []).outcome =
      .panicked (.indexOutOfRange 0 0) :=
  ⟨(Call_without_endpoint (sampleClient ⟨"http://example.org/ns/", []⟩)
      (sampleEnv ⟨"http://example.org/ns/", []⟩) (respond []) "" []
      ⟨"http://example.org/ns/", []⟩ rfl (Or.inl rfl)).1,
   (Call_without_endpoint (sampleClient ⟨"http://example.org/ns/", []⟩)
      (sampleEnv ⟨"http://example.org/ns/", []⟩) (respond []) "" []
      ⟨"http://example.org/ns/", []⟩ rfl (Or.inl rfl)).2.1 _ (by decide),
   (Call_without_endpoint (sampleClient ⟨"http://example.org/ns/", [⟨[]⟩]⟩)
      (sampleEnv ⟨"http://example.org/ns/", [⟨[]⟩]⟩) (respond []) "GetUser" []
      ⟨"http://example.org/ns/", [⟨[]⟩]⟩ rfl
      (Or.inr ⟨⟨[]⟩, [], rfl, Or.inl rfl⟩)).2.2 (by decide)⟩

/-- C4 fails as stated: on a client that `NewClient` returns for a definition with
zero services, `Call("GetUser", id = 42)` does not return an error, it stops with an
index-out-of-range fault. -/
theorem Call_without_endpoint_counterexample :
    NewClient (sampleEnv ⟨"http://example.org/ns/", []⟩) sampleWSDL =
      .ok (sampleClient ⟨"http://example.org/ns/", []⟩) ∧
    (sampleMarshalIndent
        { sampleClient ⟨"http://example.org/ns/", []⟩ with
          Method := "GetUser", Params := [("id", "42")] }).2 = none ∧
    ((sampleClient ⟨"http://example.org/ns/", []⟩).Call
        (sampleEnv ⟨"http://example.org/ns/", []⟩)
        (respond (ascii "<Envelope><Body></Body></Envelope>"))
        "GetUser" [("id", "42")]).sent = [] ∧
    ((sampleClient ⟨"http://example.org/ns/", []⟩).Call
        (sampleEnv ⟨"http://example.org/ns/", []⟩)
        (respond (ascii "<Envelope><Body></Body></Envelope>"))
        "GetUser" [("id", "42")]).outcome = .panicked (.indexOutOfRange 0 0) :=
  ⟨rfl, by decide, by decide, by decide⟩

/-- C5 (as the code has it): when the client has a first service, port and address,
the encoding of `(m, p)` succeeds and the address is accepted by `http.NewRequest`
(it parses as a URL), exactly one request is handed to the transport: a POST to
that first address whose body is the encoded payload, whose content length is the
length of the payload and whose headers are `Content-Type: text/xml;charset=UTF-8`,
`Accept: text/xml` and `SOAPAction: URL/m`. -/
theorem Call_request (c : Client) (env : Env) (tr : Transport) (m : String) (p : Params)
    (d : wsdlDefinitions) (s : wsdlService) (ss : List wsdlService) (pt : wsdlPort)
    (pts : List wsdlPort) (a : wsdlAddress) (as : List wsdlAddress)
    (hd : c.Definitions = some d) (hs : d.Services = s :: ss) (hp : s.Ports = pt :: pts)
    (ha : pt.SoapAddresses = a :: as)
    (henc : (env.marshalIndent { c with Method := m, Params := p }).2 = none)
    (hurl : env.urlParse a.Location = none) :
    (c.Call env tr m p).sent =
      [{ Method := "POST", URL := a.Location,
         Header := [("Content-Type", "text/xml;charset=UTF-8"), ("Accept", "text/xml"),
                    ("SOAPAction", c.URL ++ "/" ++ m)],
         Body := (env.marshalIndent { c with Method := m, Params := p }).1,
         ContentLength := ((env.marshalIndent { c with Method := m, Params := p }).1.length : Int) }] := by
  have hloc := firstLocation_of_endpoint c d s ss pt pts a as hd hs hp ha
  have henc2 : (c.encoded env m p).2 = none := henc
  have hsent := doRequest_sent (c.prepared env m p) env tr a.Location hurl
  rcases Call_cases c env tr m p with ⟨e, h, _⟩ | ⟨pn, _, h, _⟩ | ⟨url, e, _, h, _, hcall⟩ |
    ⟨url, _, h, _, hcall⟩
  · rw [henc2] at h
    cases h
  · rw [hloc] at h
    cases h
  · rw [hloc] at h
    cases h
    rw [hcall]
    exact hsent
  · rw [hloc] at h
    cases h
    rw [hcall]
    exact hsent

/-- The scenario of the spec: namespace `http://example.org/ns`, method `GetUser` and
address `http://example.org/endpoint` give a POST to that address with the
`SOAPAction` `http://example.org/ns/GetUser`. -/
theorem Call_request_witness :
    ((sampleClient sampleDefinitions).Call (sampleEnv sampleDefinitions) (refuse "down")
        "GetUser" [("id", "42")]).sent =
      [{ Method := "POST", URL := "http://example.org/endpoint",
         Header := [("Content-Type", "text/xml;charset=UTF-8"), ("Accept", "text/xml"),
                    ("SOAPAction", "http://example.org/ns/GetUser")],
         Body := ascii "<Envelope><Body><GetUser><id>42</id></GetUser></Body></Envelope>",
         ContentLength := 64 }] := by
  rw [Call_request (sampleClient sampleDefinitions) (sampleEnv sampleDefinitions)
    (refuse "down") "GetUser" [("id", "42")] sampleDefinitions
    ⟨[⟨[⟨"http://example.org/endpoint"⟩]⟩]⟩ [] ⟨[⟨"http://example.org/endpoint"⟩]⟩ []
    ⟨"http://example.org/endpoint"⟩ [] rfl rfl rfl rfl (by decide) (by decide)]
  decide

/-- C5 fails as stated: with the one address `:`, which has no protocol scheme,
the encoding succeeds and `http.NewRequest` fails, so `Call` returns the `doRequest
failed` error and no request at all is handed to the transport. -/
theorem Call_request_counterexample :
    (sampleMarshalIndent
        { sampleClient (definitionsAt "http://example.org/ns/" ":") with
          Method := "GetUser", Params := [("id", "42")] }).2 = none ∧
    ((sampleClient (definitionsAt "http://example.org/ns/" ":")).Call
        (sampleEnv (definitionsAt "http://example.org/ns/" ":"))
        (respond (ascii "<Envelope><Body></Body></Envelope>"))
        "GetUser" [("id", "42")]).sent = [] ∧
    ((sampleClient (definitionsAt "http://example.org/ns/" ":")).Call
        (sampleEnv (definitionsAt "http://example.org/ns/" ":"))
        (respond (ascii "<Envelope><Body></Body></Envelope>"))
        "GetUser" [("id", "42")]).outcome =
      .returned (some "doRequest failed: parse \":\": missing protocol scheme") :=
  ⟨by decide, by decide, by decide⟩

/-! ## NewClient -/

theorem TrimSuffix_slash (s : String) :
    s = TrimSuffix s "/" ++ "/" ∨ (s = TrimSuffix s "/" ∧ ∀ t : String, s ≠ t ++ "/") := by
  by_cases h : HasSuffix s "/" = true
  · left
    have h2 := h
    unfold HasSuffix at h2
    simp only [Bool.and_eq_true, decide_eq_true_eq] at h2
    obtain ⟨_, hdrop⟩ := h2
    unfold TrimSuffix
    rw [if_pos h]
    apply String.ext
    rw [String.data_append]
    have hsplit := List.take_append_drop (s.data.length - ['/'].length) s.data
    rw [hdrop] at hsplit
    exact hsplit.symm
  · right
    unfold TrimSuffix
    rw [if_neg h]
    refine ⟨rfl, ?_⟩
    intro t ht
    apply h
    unfold HasSuffix
    simp only [Bool.and_eq_true, decide_eq_true_eq]
    have hdata : s.data = t.data ++ ("/" : String).data := by
      rw [ht, String.data_append]
    have hlen : ("/" : String).data.length = 1 := rfl
    refine ⟨?_, ?_⟩
    · rw [hdata, List.length_append]
      exact Nat.le_add_left _ _
    · rw [hdata, List.length_append, Nat.add_sub_cancel, List.drop_left]

/-- C6 (as the code has it): when the WSDL location parses as a URL and the provider
returns `d`, `NewClient` succeeds with `WSDL` the given location, `Definitions`
the definition `d`, the call state empty, and `URL` the target namespace of `d`
without one trailing `/`: the target namespace is `URL` followed by one `/`, or it
is `URL` itself and does not end with `/`. -/
theorem NewClient_namespace (env : Env) (wsdl : String) (d : wsdlDefinitions)
    (hurl : env.urlParse wsdl = none) (hd : env.getWsdlDefinitions wsdl = .ok d) :
    NewClient env wsdl =
      .ok { WSDL := wsdl, URL := TrimSuffix d.TargetNamespace "/", Method := "",
            Params := [], HeaderName := "", HeaderParams := [], Definitions := some d,
            Body := [], Header := [], payload := [] } ∧
    (d.TargetNamespace = TrimSuffix d.TargetNamespace "/" ++ "/" ∨
      (d.TargetNamespace = TrimSuffix d.TargetNamespace "/" ∧
        ∀ t : String, d.TargetNamespace ≠ t ++ "/")) := by
  refine ⟨?_, TrimSuffix_slash d.TargetNamespace⟩
  simp only [NewClient, hurl, hd]

/-- The scenario of the spec: the namespace `http://example.org/ns/` gives the URL
`http://example.org/ns`. -/
theorem NewClient_namespace_witness :
    NewClient (sampleEnv sampleDefinitions) sampleWSDL =
      .ok { WSDL := "http://example.org/service?wsdl", URL := "http://example.org/ns",
            Method := "", Params := [], HeaderName := "", HeaderParams := [],
            Definitions := some sampleDefinitions, Body := [], Header := [],
            payload := [] } :=
  (NewClient_namespace (sampleEnv sampleDefinitions) sampleWSDL sampleDefinitions
    (by decide) rfl).1

/-- C6 fails as stated: for the target namespace `http://example.org/ns//` the client
gets the URL `http://example.org/ns/`, which still ends with `/`. -/
theorem NewClient_namespace_counterexample :
    NewClient (sampleEnv (definitionsAt "http://example.org/ns//" "http://example.org/endpoint"))
        sampleWSDL =
      .ok { WSDL := "http://example.org/service?wsdl", URL := "http://example.org/ns/",
            Method := "", Params := [], HeaderName := "", HeaderParams := [],
            Definitions :=
              some (definitionsAt "http://example.org/ns//" "http://example.org/endpoint"),
            Body := [], Header := [], payload := [] } ∧
    HasSuffix "http://example.org/ns/" "/" = true :=
  ⟨rfl, by decide⟩

/-! ## Call: the response -/

/-- C9: when the encoding and the request succeed with response bytes `b`, `Call`
sets `Body` and `Header` to the regions the envelope decoder produced for `b`,
whether or not the decoder reported an error; it returns the error
`Unmarshal response failed: ...` when the decoder reported one and nil otherwise. -/
theorem Call_records_response (c : Client) (env : Env) (tr : Transport) (m : String)
    (p : Params) (url : String) (b : Bytes)
    (henc : (env.marshalIndent { c with Method := m, Params := p }).2 = none)
    (hloc : c.firstLocation = .ok url)
    (hreq : ((c.prepared env m p).doRequest env tr url).err = none)
    (hb : ((c.prepared env m p).doRequest env tr url).bytes = b) :
    (c.Call env tr m p).client.Body = (env.unmarshalEnvelope b).1.Body.Contents ∧
    (c.Call env tr m p).client.Header = (env.unmarshalEnvelope b).1.Header.Contents ∧
    (∀ e, (env.unmarshalEnvelope b).2 = some e →
      (c.Call env tr m p).outcome =
        .returned (some ("Unmarshal response failed: " ++ e))) ∧
    ((env.unmarshalEnvelope b).2 = none → (c.Call env tr m p).outcome = .returned none) := by
  rw [Call_of_response c env tr m p url henc hloc hreq, hb]
  refine ⟨rfl, rfl, ?_, ?_⟩
  · intro e he
    simp only [he]
  · intro he
    simp only [he]

/-- A response cut off after the body element: the decoder reports a syntax error,
`Call` returns it, and the body it had read is stored all the same. -/
theorem Call_records_response_witness :
    ((sampleClient sampleDefinitions).Call (sampleEnv sampleDefinitions)
        (respond (ascii "<Envelope><Header><h/></Header><Body><a>1</a></Body>"))
        "GetUser" [("id", "42")]).client.Body = ascii "<a>1</a>" ∧
    ((sampleClient sampleDefinitions).Call (sampleEnv sampleDefinitions)
        (respond (ascii "<Envelope><Header><h/></Header><Body><a>1</a></Body>"))
        "GetUser" [("id", "42")]).client.Header = ascii "<h/>" ∧
    ((sampleClient sampleDefinitions).Call (sampleEnv sampleDefinitions)
        (respond (ascii "<Envelope><Header><h/></Header><Body><a>1</a></Body>"))
        "GetUser" [("id", "42")]).outcome =
      .returned (some
        "Unmarshal response failed: XML syntax error on line 1: unexpected EOF") := by
  have h := Call_records_response (sampleClient sampleDefinitions)
    (sampleEnv sampleDefinitions)
    (respond (ascii "<Envelope><Header><h/></Header><Body><a>1</a></Body>"))
    "GetUser" [("id", "42")] "http://example.org/endpoint"
    (ascii "<Envelope><Header><h/></Header><Body><a>1</a></Body>")
    (by decide) rfl (by decide) (by decide)
  refine ⟨h.1.trans (by decide), h.2.1.trans (by decide), h.2.2.1 _ (by decide)⟩

/-! ## GetLastRequest -/

theorem Call_client_payload (c : Client) (env : Env) (tr : Transport) (m : String)
    (p : Params) :
    (c.Call env tr m p).client.Method = m ∧ (c.Call env tr m p).client.Params = p ∧
    (c.Call env tr m p).client.payload = (c.encoded env m p).1 := by
  rcases Call_cases c env tr m p with ⟨_, _, h⟩ | ⟨_, _, _, h⟩ | ⟨_, _, _, _, _, h⟩ |
    ⟨_, _, _, _, h⟩ <;> rw [h] <;> exact ⟨rfl, rfl, rfl⟩

theorem Call_sent_body (c : Client) (env : Env) (tr : Transport) (m : String)
    (p : Params) :
    ∀ req ∈ (c.Call env tr m p).sent, req.Body = (c.encoded env m p).1 := by
  intro req hreq
  rcases Call_cases c env tr m p with ⟨_, _, h⟩ | ⟨_, _, _, h⟩ | ⟨url, _, _, _, _, h⟩ |
    ⟨url, _, _, _, h⟩ <;> rw [h] at hreq
  · simp at hreq
  · simp at hreq
  · exact doRequest_sent_body (c.prepared env m p) env tr url req hreq
  · exact doRequest_sent_body (c.prepared env m p) env tr url req hreq

/-- C10: `GetLastRequest` returns the stored request payload and leaves the client as
it is; after a `Call(m, p)`, however the call ended, it returns the bytes the
encoder produced for `(m, p)` (the encoded request when the encoding succeeded),
and every request handed to the transport during the call carried exactly these
bytes as its body. -/
theorem GetLastRequest_after_Call (c : Client) (env : Env) (tr : Transport) (m : String)
    (p : Params) :
    c.GetLastRequest = (c, c.payload) ∧
    (c.Call env tr m p).client.GetLastRequest =
      ((c.Call env tr m p).client, (env.marshalIndent { c with Method := m, Params := p }).1) ∧
    ∀ req ∈ (c.Call env tr m p).sent,
      req.Body = (env.marshalIndent { c with Method := m, Params := p }).1 := by
  refine ⟨rfl, ?_, Call_sent_body c env tr m p⟩
  unfold Client.GetLastRequest
  rw [(Call_client_payload c env tr m p).2.2]
  rfl

/-- The payload of the scenario is returned after a call whose encoding succeeded and
whose transport failed. -/
theorem GetLastRequest_after_Call_witness :
    (sampleMarshalIndent
        { sampleClient sampleDefinitions with
          Method := "GetUser", Params := [("id", "42")] }).2 = none ∧
    ((sampleClient sampleDefinitions).Call (sampleEnv sampleDefinitions) (refuse "down")
        "GetUser" [("id", "42")]).outcome = .returned (some "doRequest failed: down") ∧
    (((sampleClient sampleDefinitions).Call (sampleEnv sampleDefinitions) (refuse "down")
        "GetUser" [("id", "42")]).client.GetLastRequest).2 =
      ascii "<Envelope><Body><GetUser><id>42</id></GetUser></Body></Envelope>" := by
  have h := (GetLastRequest_after_Call (sampleClient sampleDefinitions)
    (sampleEnv sampleDefinitions) (refuse "down") "GetUser" [("id", "42")]).2.1
  refine ⟨by decide, by decide, ?_⟩
  rw [h]
  decide

/-! ## Call: the session state -/

theorem failedAt_self (stage e : String) :
    Outcome.failedAt stage (.returned (some (stage ++ " failed: " ++ e))) = true := by
  unfold Outcome.failedAt
  rw [String.data_append, List.isPrefixOf_iff_prefix]
  exact List.prefix_append _ _

theorem doRequest_of_success (c : Client) (env : Env) (tr : Transport) (url : String)
    (herr : (c.doRequest env tr url).err = none) :
    ∃ req, (c.doRequest env tr url).sent = [req] ∧
      tr req = .ok ((c.doRequest env tr url).bytes, none) := by
  cases hurl : env.urlParse url with
  | some e =>
    rw [doRequest_of_bad_url c env tr url e hurl] at herr
    cases herr
  | none =>
    refine ⟨c.request url, doRequest_sent c env tr url hurl, ?_⟩
    have hreq : c.doRequest env tr url =
        match tr (c.request url) with
        | .error e => { bytes := [], err := some e, sent := [c.request url] }
        | .ok (b, e) => { bytes := b, err := e, sent := [c.request url] } := by
      simp only [Client.doRequest, httpNewRequest, hurl, Request.headerAdd, Client.request]
      rfl
    rw [hreq] at herr ⊢
    cases htr : tr (c.request url) with
    | error e =>
      rw [htr] at herr
      cases herr
    | ok r =>
      obtain ⟨b, e⟩ := r
      rw [htr] at herr
      simp only at herr
      subst herr
      rfl

/-- Every `Call` either stops before the response is decoded, and then keeps `Body`
and `Header`, or decodes the response of its one request, and then stores the
regions decoded from it. -/
theorem Call_body_cases (c : Client) (env : Env) (tr : Transport) (m : String)
    (p : Params) :
    (((c.Call env tr m p).outcome.failedAt "MarshalIndent" = true ∨
        (c.Call env tr m p).outcome.failedAt "doRequest" = true ∨
        ∃ pn, (c.Call env tr m p).outcome = .panicked pn) ∧
      (c.Call env tr m p).outcome.failedAt "Unmarshal response" = false ∧
      (c.Call env tr m p).outcome ≠ .returned none ∧
      (c.Call env tr m p).client.Body = c.Body ∧
      (c.Call env tr m p).client.Header = c.Header) ∨
    (((c.Call env tr m p).outcome = .returned none ∨
        (c.Call env tr m p).outcome.failedAt "Unmarshal response" = true) ∧
      (c.Call env tr m p).outcome.failedAt "MarshalIndent" = false ∧
      (c.Call env tr m p).outcome.failedAt "doRequest" = false ∧
      (∀ pn, (c.Call env tr m p).outcome ≠ .panicked pn) ∧
      ∃ req b, (c.Call env tr m p).sent = [req] ∧ tr req = .ok (b, none) ∧
        (c.Call env tr m p).client.Body = (env.unmarshalEnvelope b).1.Body.Contents ∧
        (c.Call env tr m p).client.Header = (env.unmarshalEnvelope b).1.Header.Contents) := by
  rcases Call_cases c env tr m p with ⟨e, _, h⟩ | ⟨pn, _, _, h⟩ | ⟨url, e, _, _, _, h⟩ |
    ⟨url, _, _, hreq, h⟩
  · left
    rw [h]
    refine ⟨Or.inl (failedAt_self "MarshalIndent" e), ?_, ?_, rfl, rfl⟩
    · cases e
      rfl
    · intro hne
      cases hne
  · left
    rw [h]
    refine ⟨Or.inr (Or.inr ⟨pn, rfl⟩), rfl, ?_, rfl, rfl⟩
    intro hne
    cases hne
  · left
    rw [h]
    refine ⟨Or.inr (Or.inl (failedAt_self "doRequest" e)), ?_, ?_, rfl, rfl⟩
    · cases e
      rfl
    · intro hne
      cases hne
  · right
    obtain ⟨req, hsent, htr⟩ := doRequest_of_success (c.prepared env m p) env tr url hreq
    rw [h]
    refine ⟨?_, ?_, ?_, ?_, req, _, hsent, htr, rfl, rfl⟩
    · cases (env.unmarshalEnvelope ((c.prepared env m p).doRequest env tr url).bytes).2 with
      | none => exact Or.inl rfl
      | some e => exact Or.inr (failedAt_self "Unmarshal response" e)
    · cases (env.unmarshalEnvelope ((c.prepared env m p).doRequest env tr url).bytes).2 with
      | none => rfl
      | some e =>
        cases e
        rfl
    · cases (env.unmarshalEnvelope ((c.prepared env m p).doRequest env tr url).bytes).2 with
      | none => rfl
      | some e =>
        cases e
        rfl
    · intro pn
      cases (env.unmarshalEnvelope ((c.prepared env m p).doRequest env tr url).bytes).2 <;>
        intro hne <;> cases hne

theorem Call_body_kept (c : Client) (env : Env) (tr : Transport) (m : String) (p : Params)
    (hstop : (c.Call env tr m p).outcome.failedAt "MarshalIndent" = true ∨
      (c.Call env tr m p).outcome.failedAt "doRequest" = true ∨
      ∃ pn, (c.Call env tr m p).outcome = .panicked pn) :
    (c.Call env tr m p).client.Body = c.Body ∧
    (c.Call env tr m p).client.Header = c.Header := by
  rcases Call_body_cases c env tr m p with ⟨_, _, _, hb, hh⟩ | ⟨_, h1, h2, h3, _⟩
  · exact ⟨hb, hh⟩
  · rcases hstop with h | h | ⟨pn, h⟩
    · rw [h1] at h
      cases h
    · rw [h2] at h
      cases h
    · exact absurd h (h3 pn)

/-- C8 (as the code has it): after every `Call(m, p)`, however it ended, `Method` is
`m`, `Params` is `p` and the request payload is what the encoder returned for this
call.  `Body` and `Header` keep the values they had before the call when it
stopped before the response was decoded (a `MarshalIndent failed` or `doRequest
failed` error, or a fault), and are the regions decoded from the response to this
call's one request when it returned nil or an `Unmarshal response failed` error. -/
theorem Call_session_state (c : Client) (env : Env) (tr : Transport) (m : String)
    (p : Params) :
    (c.Call env tr m p).client.Method = m ∧
    (c.Call env tr m p).client.Params = p ∧
    (c.Call env tr m p).client.payload =
      (env.marshalIndent { c with Method := m, Params := p }).1 ∧
    (((c.Call env tr m p).outcome.failedAt "MarshalIndent" = true ∨
        (c.Call env tr m p).outcome.failedAt "doRequest" = true ∨
        ∃ pn, (c.Call env tr m p).outcome = .panicked pn) →
      (c.Call env tr m p).client.Body = c.Body ∧
      (c.Call env tr m p).client.Header = c.Header) ∧
    (((c.Call env tr m p).outcome = .returned none ∨
        (c.Call env tr m p).outcome.failedAt "Unmarshal response" = true) →
      ∃ req b, (c.Call env tr m p).sent = [req] ∧ tr req = .ok (b, none) ∧
        (c.Call env tr m p).client.Body = (env.unmarshalEnvelope b).1.Body.Contents ∧
        (c.Call env tr m p).client.Header = (env.unmarshalEnvelope b).1.Header.Contents) := by
  obtain ⟨hm, hp, hpay⟩ := Call_client_payload c env tr m p
  refine ⟨hm, hp, hpay, ?_, ?_⟩
  · exact Call_body_kept c env tr m p
  · intro hdone
    rcases Call_body_cases c env tr m p with ⟨_, h1, h2, _, _⟩ | ⟨_, _, _, _, hex⟩
    · rcases hdone with h | h
      · exact absurd h h2
      · rw [h1] at h
        cases h
    · exact hex

/-- A second call `GetOrder` whose transport fails takes over `Method`, `Params` and
the payload and keeps the body of the first call. -/
theorem Call_session_state_witness :
    (clientAfterGetUser.Call (sampleEnv sampleDefinitions) (refuse "down")
        "GetOrder" [("id", "7")]).outcome = .returned (some "doRequest failed: down") ∧
    (clientAfterGetUser.Call (sampleEnv sampleDefinitions) (refuse "down")
        "GetOrder" [("id", "7")]).client.Method = "GetOrder" ∧
    (clientAfterGetUser.Call (sampleEnv sampleDefinitions) (refuse "down")
        "GetOrder" [("id", "7")]).client.Body = clientAfterGetUser.Body ∧
    (clientAfterGetUser.Call (sampleEnv sampleDefinitions) (refuse "down")
        "GetOrder" [("id", "7")]).client.Header = clientAfterGetUser.Header :=
  ⟨by decide,
   (Call_session_state clientAfterGetUser (sampleEnv sampleDefinitions) (refuse "down")
      "GetOrder" [("id", "7")]).1,
   (Call_session_state clientAfterGetUser (sampleEnv sampleDefinitions) (refuse "down")
      "GetOrder" [("id", "7")]).2.2.2.1 (Or.inr (Or.inl (by decide)))⟩

/-- C8 fails as stated: after a first call that stored the body `<a>1</a>`, a second
call whose transport fails returns an error and leaves that body in place, and a
following `Unmarshal` decodes it, the response of the previous call, into the
target. -/
theorem Call_session_state_counterexample :
    clientAfterGetUser.Body = ascii "<a>1</a>" ∧
    (clientAfterGetUser.Call (sampleEnv sampleDefinitions) (refuse "down")
        "GetOrder" [("id", "7")]).outcome = .returned (some "doRequest failed: down") ∧
    (clientAfterGetUser.Call (sampleEnv sampleDefinitions) (refuse "down")
        "GetOrder" [("id", "7")]).client.Body = ascii "<a>1</a>" ∧
    ((clientAfterGetUser.Call (sampleEnv sampleDefinitions) (refuse "down")
        "GetOrder" [("id", "7")]).client.Unmarshal (sampleEnv sampleDefinitions)
        (sampleUnmarshalReply "a") ⟨"old"⟩).decoded =
      [DecodeOp.fault (ascii "<a>1</a>"), DecodeOp.target (ascii "<a>1</a>")] ∧
    ((clientAfterGetUser.Call (sampleEnv sampleDefinitions) (refuse "down")
        "GetOrder" [("id", "7")]).client.Unmarshal (sampleEnv sampleDefinitions)
        (sampleUnmarshalReply "a") ⟨"old"⟩).target = ⟨"1"⟩ :=
  ⟨by decide, by decide, by decide, by decide, by decide⟩

/-! ## The empty-body invariant -/

theorem NewClient_body (env : Env) (wsdl : String) (c : Client)
    (hnew : NewClient env wsdl = .ok c) : c.Body = [] := by
  unfold NewClient at hnew
  split at hnew
  · cases hnew
  · split at hnew
    · cases hnew
    · cases hnew
      rfl

theorem afterCalls_body (env : Env) (calls : List CallInput) :
    ∀ c : Client, c.Body = [] →
      (∀ r ∈ runCalls env c calls,
        r.outcome.failedAt "MarshalIndent" = true ∨ r.outcome.failedAt "doRequest" = true ∨
        (r.outcome.failedAt "Unmarshal response" = true ∧ r.client.Body.length = 0)) →
      (afterCalls env c calls).Body = [] := by
  induction calls with
  | nil =>
    intro c hc _
    exact hc
  | cons i rest ih =>
    intro c hc hall
    unfold afterCalls
    apply ih
    · have hstep := hall (c.Call env i.transport i.m i.p) (by simp [runCalls])
      rcases hstep with h | h | ⟨_, h⟩
      · rw [(Call_body_kept c env i.transport i.m i.p (Or.inl h)).1, hc]
      · rw [(Call_body_kept c env i.transport i.m i.p (Or.inr (Or.inl h))).1, hc]
      · exact List.length_eq_zero.mp h
    · intro r hr
      exact hall r (by simp [runCalls, hr])

/-- C7 (as the code has it): on a client freshly returned by `NewClient`, after any
finite sequence of `Call` invocations each of which returned a `MarshalIndent
failed` or `doRequest failed` error, or an `Unmarshal response failed` error that
left a zero-length body, a following `Unmarshal` returns `Body is empty`; and so
does an `Unmarshal` after a `Call`, on any client, whose response decoded to a
zero-length body. -/
theorem Unmarshal_after_failed_calls :
    (∀ (V : Type) (env : Env) (wsdl : String) (c : Client) (calls : List CallInput)
        (dec : Decoder V) (v : V),
      NewClient env wsdl = .ok c →
      (∀ r ∈ runCalls env c calls,
        r.outcome.failedAt "MarshalIndent" = true ∨ r.outcome.failedAt "doRequest" = true ∨
        (r.outcome.failedAt "Unmarshal response" = true ∧ r.client.Body.length = 0)) →
      ((afterCalls env c calls).Unmarshal env dec v).err = some "Body is empty") ∧
    (∀ (V : Type) (env : Env) (tr : Transport) (c : Client) (m : String) (p : Params)
        (url : String) (dec : Decoder V) (v : V),
      (env.marshalIndent { c with Method := m, Params := p }).2 = none →
      c.firstLocation = .ok url →
      ((c.prepared env m p).doRequest env tr url).err = none →
      (env.unmarshalEnvelope
        ((c.prepared env m p).doRequest env tr url).bytes).1.Body.Contents.length = 0 →
      ((c.Call env tr m p).client.Unmarshal env dec v).err = some "Body is empty") := by
  constructor
  · intro V env wsdl c calls dec v hnew hfail
    have hbody := afterCalls_body env calls c (NewClient_body env wsdl c hnew) hfail
    unfold Client.Unmarshal
    rw [if_pos (by rw [hbody]; rfl)]
  · intro V env tr c m p url dec v henc hloc hreq hlen
    unfold Client.Unmarshal
    rw [if_pos (by rw [Call_of_response c env tr m p url henc hloc hreq]; exact hlen)]

/-- Three failing calls on the client of the scenario, and a call answered by an
envelope with an empty body on a client that holds an earlier body. -/
theorem Unmarshal_after_failed_calls_witness :
    List.map CallResult.outcome
        (runCalls (sampleEnv sampleDefinitions) (sampleClient sampleDefinitions)
          failingCalls) =
      [.returned (some "MarshalIndent failed: xml: start tag with no name"),
       .returned (some "doRequest failed: down"),
       .returned (some "Unmarshal response failed: EOF")] ∧
    ((afterCalls (sampleEnv sampleDefinitions) (sampleClient sampleDefinitions)
        failingCalls).Unmarshal (sampleEnv sampleDefinitions)
        (sampleUnmarshalReply "a") ⟨"old"⟩).err = some "Body is empty" ∧
    ((clientAfterGetUser.Call (sampleEnv sampleDefinitions)
        (respond (ascii "<Envelope><Body></Body></Envelope>"))
        "GetOrder" [("id", "7")]).client.Unmarshal (sampleEnv sampleDefinitions)
        (sampleUnmarshalReply "a") ⟨"old"⟩).err = some "Body is empty" :=
  ⟨by decide,
   Unmarshal_after_failed_calls.1 Reply (sampleEnv sampleDefinitions) sampleWSDL
     (sampleClient sampleDefinitions) failingCalls (sampleUnmarshalReply "a") ⟨"old"⟩
     rfl (by decide),
   Unmarshal_after_failed_calls.2 Reply (sampleEnv sampleDefinitions)
     (respond (ascii "<Envelope><Body></Body></Envelope>")) clientAfterGetUser
     "GetOrder" [("id", "7")] "http://example.org/endpoint" (sampleUnmarshalReply "a")
     ⟨"old"⟩ (by decide) rfl (by decide) (by decide)⟩

/-- C7 fails as stated: on the client that `NewClient` returns, one `Call` answered by
a response cut off after its body returns a non-nil error (the decoding failed)
and yet stores the body `<a>1</a>`; the following `Unmarshal` does not return
`Body is empty`, it decodes that body into the target and returns nil. -/
theorem Unmarshal_after_failed_calls_counterexample :
    NewClient (sampleEnv sampleDefinitions) sampleWSDL =
      .ok (sampleClient sampleDefinitions) ∧
    List.map CallResult.outcome
        (runCalls (sampleEnv sampleDefinitions) (sampleClient sampleDefinitions)
          [⟨"GetUser", [("id", "42")], respond truncatedResponse⟩]) =
      [.returned (some
        "Unmarshal response failed: XML syntax error on line 1: unexpected EOF")] ∧
    (afterCalls (sampleEnv sampleDefinitions) (sampleClient sampleDefinitions)
        [⟨"GetUser", [("id", "42")], respond truncatedResponse⟩]).Body = ascii "<a>1</a>" ∧
    ((afterCalls (sampleEnv sampleDefinitions) (sampleClient sampleDefinitions)
        [⟨"GetUser", [("id", "42")], respond truncatedResponse⟩]).Unmarshal
        (sampleEnv sampleDefinitions) (sampleUnmarshalReply "a") ⟨"old"⟩).err = none ∧
    ((afterCalls (sampleEnv sampleDefinitions) (sampleClient sampleDefinitions)
        [⟨"GetUser", [("id", "42")], respond truncatedResponse⟩]).Unmarshal
        (sampleEnv sampleDefinitions) (sampleUnmarshalReply "a") ⟨"old"⟩).target = ⟨"1"⟩ :=
  ⟨rfl, by decide, by decide, by decide, by decide⟩

end Gosoap
